import Mathlib

/-!
Verification of the real-time event distribution layer of the chatter
backend: the WebSocket connection manager (`app/ws_manager.py`), the voice
session registry and signaling relay (`app/voice_manager.py`), and the
presence coordinator (`app/presence.py`, `app/routers/ws.py`).

The Python code is shallowly embedded: UUIDs become `Nat`, room keys stay
`String`, Python dicts become insertion-ordered association lists, and each
stateful coroutine becomes a pure function returning the new state together
with a trace of observable actions (lock operations, serialisations,
snapshot copies, network sends).
-/

namespace Chatter

/-- One live duplex connection handle, identified by a numeric id. -/
abbrev Conn := Nat

/-- A room key, e.g. `channel:<id>`, `server:<id>`, `user:<id>`. -/
abbrev RoomKey := String

/-- Association-list lookup (first matching key), modelling a Python dict read. -/
def alookup {α β : Type} [DecidableEq α] : List (α × β) → α → Option β
  | [], _ => none
  | (k, v) :: t, a => if k = a then some v else alookup t a

/-- Association-list write: replace in place when the key is present (Python
dict assignment keeps insertion order), append otherwise. -/
def aset {α β : Type} [DecidableEq α] : List (α × β) → α → β → List (α × β)
  | [], a, b => [(a, b)]
  | (k, v) :: t, a, b => if k = a then (k, b) :: t else (k, v) :: aset t a b

/-- Association-list key removal, modelling Python dict `del` / `pop`. -/
def aremove {α β : Type} [DecidableEq α] (l : List (α × β)) (a : α) : List (α × β) :=
  l.filter (fun e => e.1 ≠ a)

/-- Every entry of a registry map has a non-empty member collection: the
"no leaked empty rooms" invariant. -/
def noEmptyVals {α β : Type} (s : List (α × List β)) : Prop :=
  ∀ e ∈ s, e.2 ≠ []

instance {α β : Type} [DecidableEq α] [DecidableEq β] (s : List (α × List β)) :
    Decidable (noEmptyVals s) :=
  List.decidableBAll _ s

/-- State of the `ConnectionManager`: room key → member connections
(Python `dict[str, set[WebSocket]]`; the sets are modelled as duplicate-free
lists in insertion order). -/
abbrev CMState := List (RoomKey × List Conn)

namespace ConnectionManager

/-- Current membership of a room; empty when the room key is absent
(`self._rooms.get(room, [])`). -/
def members (s : CMState) (r : RoomKey) : List Conn :=
  (alookup s r).getD []

/-- `channel_room` of `ws_manager.py`. -/
def channelRoom (channel_id : Nat) : RoomKey := "channel:" ++ toString channel_id

/-- `server_room` of `ws_manager.py`. -/
def serverRoom (server_id : Nat) : RoomKey := "server:" ++ toString server_id

/-- `user_room` of `ws_manager.py`. -/
def userRoom (user_id : Nat) : RoomKey := "user:" ++ toString user_id

/-- `connect(room, ws)` (ws_manager.py lines 33-37): add the connection to the
room's set, creating the room on first join. -/
def connect (s : CMState) (r : RoomKey) (c : Conn) : CMState :=
  let ms := members s r
  aset s r (if c ∈ ms then ms else ms ++ [c])

/-- `disconnect(room, ws)` (ws_manager.py lines 39-44): discard the connection;
if the room is now empty, delete the room entry.  On an absent room the
defaultdict first materialises an empty set and the final `del` removes it
again, so the state is unchanged. -/
def disconnect (s : CMState) (r : RoomKey) (c : Conn) : CMState :=
  match alookup s r with
  | none => s
  | some ms =>
    let ms' := ms.filter (fun x => x ≠ c)
    if ms' = [] then aremove s r else aset s r ms'

/-- Observable actions of the `ConnectionManager`, in program order: lock
acquire/release around membership mutation, one `json.dumps` per
serialisation, taking the snapshot copy `list(self._rooms.get(room, []))`,
and one attempted network send per target connection (`sendFail` is a
`ws.send_text` call that raised). -/
inductive Act : Type
  | lockAcquire
  | lockRelease
  | serialize
  | snapshot
  | send (c : Conn)
  | sendFail (c : Conn)
deriving DecidableEq, Repr

/-- The send attempts of a fan-out loop, one per target connection. -/
def sendActs (fails : Conn → Bool) (l : List Conn) : List Act :=
  l.map (fun c => if fails c then Act.sendFail c else Act.send c)

/-- Lock activity of the dead-connection cleanup loop: one `disconnect` call
(lock acquire then release) per dead connection. -/
def lockActs : Nat → List Act
  | 0 => []
  | n + 1 => Act.lockAcquire :: Act.lockRelease :: lockActs n

/-- `broadcast(room, event)` (ws_manager.py lines 50-59): serialize once,
snapshot the membership without touching the lock, attempt one send per
member, then `disconnect` every member whose send raised.  `fails c = true`
models `ws.send_text` raising for connection `c`. -/
def broadcast (s : CMState) (r : RoomKey) (fails : Conn → Bool) : CMState × List Act :=
  let snap := members s r
  let dead := snap.filter fails
  (dead.foldl (fun st c => disconnect st r c) s,
    Act.serialize :: Act.snapshot :: (sendActs fails snap ++ lockActs dead.length))

/-- `broadcast_channel_except(channel_id, exclude, event)` (ws_manager.py lines
80-95): like `broadcast` but skipping one specific connection. -/
def broadcastExcept (s : CMState) (r : RoomKey) (ex : Conn) (fails : Conn → Bool) :
    CMState × List Act :=
  let snap := members s r
  let targets := snap.filter (fun c => c ≠ ex)
  let dead := targets.filter fails
  (dead.foldl (fun st c => disconnect st r c) s,
    Act.serialize :: Act.snapshot :: (sendActs fails targets ++ lockActs dead.length))

/-- `broadcast_to_users(user_ids, event)` (ws_manager.py lines 103-122):
serialize once, then fan out over every supplied user's personal room,
collecting dead `(room, ws)` pairs and disconnecting them at the end. -/
def broadcastToUsers (s : CMState) (uids : List Nat) (fails : Conn → Bool) :
    CMState × List Act :=
  let dead := (uids.map (fun uid =>
    ((members s (userRoom uid)).filter fails).map (fun c => (userRoom uid, c)))).flatten
  (dead.foldl (fun st p => disconnect st p.1 p.2) s,
    Act.serialize ::
      ((uids.map (fun uid => Act.snapshot :: sendActs fails (members s (userRoom uid)))).flatten
        ++ lockActs dead.length))

/-- Number of `json.dumps` serialisations in a trace. -/
def countSerialize : List Act → Nat
  | [] => 0
  | Act.serialize :: t => countSerialize t + 1
  | _ :: t => countSerialize t

/-- Number of successful deliveries to connection `c` in a trace. -/
def countSendTo (c : Conn) : List Act → Nat
  | [] => 0
  | Act.send c' :: t => (if c' = c then 1 else 0) + countSendTo c t
  | _ :: t => countSendTo c t

/-- Checks, tracking the lock-hold depth, that every network send (successful
or raising) and every membership snapshot happens while the membership lock
is NOT held. -/
def ioUnlocked : Nat → List Act → Bool
  | _, [] => true
  | d, Act.lockAcquire :: t => ioUnlocked (d + 1) t
  | d, Act.lockRelease :: t => ioUnlocked (d - 1) t
  | d, Act.send _ :: t => decide (d = 0) && ioUnlocked d t
  | d, Act.sendFail _ :: t => decide (d = 0) && ioUnlocked d t
  | d, Act.serialize :: t => ioUnlocked d t
  | d, Act.snapshot :: t => decide (d = 0) && ioUnlocked d t

/-- Checks, tracking the lock-hold depth, that every membership snapshot is
taken while the membership lock IS held (the claim made by the spec). -/
def snapshotsLocked : Nat → List Act → Bool
  | _, [] => true
  | d, Act.lockAcquire :: t => snapshotsLocked (d + 1) t
  | d, Act.lockRelease :: t => snapshotsLocked (d - 1) t
  | d, Act.snapshot :: t => decide (d ≠ 0) && snapshotsLocked d t
  | d, _ :: t => snapshotsLocked d t

end ConnectionManager

/-- A flat JSON-ish value, used for the opaque fields of relayed signaling
payloads (the relay never inspects these). -/
inductive JVal : Type
  | str (s : String)
  | flag (b : Bool)
  | num (n : Nat)
  | blob (id : Nat)
deriving DecidableEq, Repr

/-- `VoiceParticipant` of `voice_manager.py` (lines 47-63) minus the raw
socket handle: the participant's user id plus the four independent state
flags, all defaulting to `False`. -/
structure VoiceParticipant where
  user_id : Nat
  is_muted : Bool := false
  is_deafened : Bool := false
  is_sharing_screen : Bool := false
  is_sharing_webcam : Bool := false
deriving DecidableEq, Repr

/-- Server → client voice events (`voice_manager.py` module docstring):
participant dictionaries are carried structurally. -/
inductive VEvent : Type
  | members (ps : List VoiceParticipant)
  | joined (p : VoiceParticipant)
  | left (user_id : Nat)
  | stateChanged (p : VoiceParticipant)
  | relayed (payload : List (String × JVal))
deriving DecidableEq, Repr

/-- One observable network send of the voice manager, addressed to the
receiving participant's user id. -/
inductive VAct : Type
  | send (dest : Nat) (ev : VEvent)
deriving DecidableEq, Repr

/-- One voice room: user id → participant record, in insertion order. -/
abbrev VRoom := List (Nat × VoiceParticipant)

/-- State of the `VoiceManager`: channel id → room
(Python `dict[uuid.UUID, dict[uuid.UUID, VoiceParticipant]]`). -/
abbrev VMState := List (Nat × VRoom)

/-- The keyword arguments of `VoiceManager.update_state`: each flag is either
absent (`None`) or a requested new value. -/
structure StateUpd where
  is_muted : Option Bool := none
  is_deafened : Option Bool := none
  is_sharing_screen : Option Bool := none
  is_sharing_webcam : Option Bool := none
deriving DecidableEq, Repr

namespace VoiceManager

/-- `self._rooms.get(channel_id, {})`. -/
def room (s : VMState) (ch : Nat) : VRoom :=
  (alookup s ch).getD []

/-- A freshly constructed participant: `VoiceParticipant(user_id=..., ws=...)`
with every flag at its default `False`. -/
def defaultParticipant (u : Nat) : VoiceParticipant :=
  { user_id := u }

/-- `VoiceManager.connect` (voice_manager.py lines 76-97): create the room if
absent, register a default-state participant, send the full current member
list to the joiner, then broadcast `voice.user_joined` to everyone else. -/
def connect (s : VMState) (ch u : Nat) : VMState × List VAct :=
  let p := defaultParticipant u
  let rm' := aset (room s ch) u p
  (aset s ch rm',
    VAct.send u (VEvent.members (rm'.map Prod.snd)) ::
      (rm'.filter (fun e => e.1 ≠ u)).map (fun e => VAct.send e.1 (VEvent.joined p)))

/-- `VoiceManager.disconnect` (voice_manager.py lines 99-110): pop the
participant (no-op when absent), drop the room if it became empty, then
broadcast `voice.user_left` to every participant still present under that
channel id. -/
def disconnect (s : VMState) (ch u : Nat) : VMState × List VAct :=
  match alookup s ch with
  | none => (s, [])
  | some rm =>
    let rm' := aremove rm u
    let s' := if rm' = [] then aremove s ch else aset s ch rm'
    (s', (room s' ch).map (fun e => VAct.send e.1 (VEvent.left u)))

/-- The flag merge of `VoiceManager.update_state` (voice_manager.py lines
129-136): each `is not None` argument overwrites its flag, the rest keep
their prior values. -/
def applyUpd (p : VoiceParticipant) (f : StateUpd) : VoiceParticipant :=
  { p with
    is_muted := f.is_muted.getD p.is_muted
    is_deafened := f.is_deafened.getD p.is_deafened
    is_sharing_screen := f.is_sharing_screen.getD p.is_sharing_screen
    is_sharing_webcam := f.is_sharing_webcam.getD p.is_sharing_webcam }

/-- `VoiceManager.update_state` (voice_manager.py lines 116-141): no-op when
the user is not registered in the channel; otherwise merge the requested
flags into the participant record and broadcast `voice.state_changed` with
the full updated state to every participant in the room. -/
def update_state (s : VMState) (ch u : Nat) (f : StateUpd) : VMState × List VAct :=
  match alookup (room s ch) u with
  | none => (s, [])
  | some p =>
    let p' := applyUpd p f
    let rm' := aset (room s ch) u p'
    (aset s ch rm', rm'.map (fun e => VAct.send e.1 (VEvent.stateChanged p')))

/-- `VoiceManager.relay` (voice_manager.py lines 147-159): silently drop when
the target is not in the channel; otherwise forward the payload with the
authenticated sender's identity written into the `from` field. -/
def relay (s : VMState) (ch fromU toU : Nat) (payload : List (String × JVal)) :
    VMState × List VAct :=
  match alookup (room s ch) toU with
  | none => (s, [])
  | some _ =>
    (s, [VAct.send toU (VEvent.relayed (aset payload "from" (JVal.str (toString fromU))))])

end VoiceManager

/-- `UserStatus` of `models/user.py`. -/
inductive Status : Type
  | offline
  | online
  | away
  | dnd
deriving DecidableEq, Repr

/-- The presence-relevant columns of one `User` row: the visible status, the
durable preferred status, and the hide-status flag. -/
structure PUser where
  status : Status
  preferred_status : Status
  hide_status : Bool
deriving DecidableEq, Repr

/-- One presence broadcast action: `manager.broadcast_user` to the user's own
room (`selfCast`), or the per-server / per-friend fan-out performed by
`broadcast_presence` in `presence.py`. -/
inductive PAct : Type
  | selfCast (st : Status)
  | serverCast (sid : Nat) (st : Status)
  | friendCast (fid : Nat) (st : Status)
deriving DecidableEq, Repr

/-- `broadcast_presence(user_id, new_status, db)` (presence.py lines 16-43):
emit one `user.status_changed` event to every server the user belongs to and
to every accepted friend's personal room. -/
def broadcastPresence (servers friends : List Nat) (st : Status) : List PAct :=
  servers.map (fun sid => PAct.serverCast sid st) ++
    friends.map (fun fid => PAct.friendCast fid st)

/-- The status-restore block run by `personal_ws` on every connect
(routers/ws.py lines 214-228): when the stored visible status differs from
the preferred status, restore it, inform the user's own connections, and run
`broadcast_presence` with `offline` substituted when `hide_status` is set. -/
def restoreOnConnect (servers friends : List Nat) (u : PUser) : PUser × List PAct :=
  if u.status ≠ u.preferred_status then
    ({ u with status := u.preferred_status },
      PAct.selfCast u.preferred_status ::
        broadcastPresence servers friends
          (if u.hide_status then Status.offline else u.preferred_status))
  else (u, [])

/-- The offline transition run by `personal_ws` after the last personal
connection drops (routers/ws.py lines 251-258): set the visible status to
`offline` and broadcast, unless it already was `offline`.  The preferred
status is never touched. -/
def offlineOnLastExit (servers friends : List Nat) (u : PUser) : PUser × List PAct :=
  if u.status ≠ Status.offline then
    ({ u with status := Status.offline }, broadcastPresence servers friends Status.offline)
  else (u, [])

/-- Why the receive loop of `personal_ws` ended: the transport closed
(`WebSocketDisconnect`), or no message arrived within the 90-second
heartbeat window (`asyncio.TimeoutError`). -/
inductive ExitReason : Type
  | closed
  | timedOut
deriving DecidableEq, Repr

/-- The heartbeat window of `routers/ws.py` (`_HEARTBEAT_TIMEOUT = 90`). -/
def heartbeatTimeout : Nat := 90

/-- The `finally` block of `personal_ws` (routers/ws.py lines 246-258):
leave the personal room, and if no connection for this user remains, run the
offline transition. -/
def personalCleanup (servers friends : List Nat) (s : CMState) (uid ws : Nat)
    (u : PUser) : CMState × PUser × List PAct :=
  if ConnectionManager.members
      (ConnectionManager.disconnect s (ConnectionManager.userRoom uid) ws)
      (ConnectionManager.userRoom uid) = [] then
    (ConnectionManager.disconnect s (ConnectionManager.userRoom uid) ws,
      (offlineOnLastExit servers friends u).1, (offlineOnLastExit servers friends u).2)
  else (ConnectionManager.disconnect s (ConnectionManager.userRoom uid) ws, u, [])

/-- Exit handling of `personal_ws` (routers/ws.py lines 231-258): the
heartbeat-timeout path exits the loop with `break`, the transport-close path
exits it with `WebSocketDisconnect`; each then runs the same `finally`
cleanup. -/
def personalWsExit (reason : ExitReason) (servers friends : List Nat) (s : CMState)
    (uid ws : Nat) (u : PUser) : CMState × PUser × List PAct :=
  match reason with
  | ExitReason.closed => personalCleanup servers friends s uid ws u
  | ExitReason.timedOut => personalCleanup servers friends s uid ws u

/-- Per-user presence machine state: the number of live personal connections
together with the user's presence columns. -/
structure PMState where
  conns : Nat
  u : PUser
deriving DecidableEq, Repr

/-- Lifecycle events driving the presence machine: a personal connection
joins, or one leaves for the given reason. -/
inductive PEvt : Type
  | connect
  | leave (r : ExitReason)
deriving DecidableEq, Repr

/-- One step of the per-user presence machine: a connect runs the restore
block of `personal_ws`; a leave (close or heartbeat timeout alike) removes
the connection and, when it was the last one, runs the offline transition. -/
def pstep (servers friends : List Nat) : PEvt → PMState → PMState × List PAct
  | PEvt.connect, st =>
    let r := restoreOnConnect servers friends st.u
    ({ conns := st.conns + 1, u := r.1 }, r.2)
  | PEvt.leave _, st =>
    let c' := st.conns - 1
    if c' = 0 then
      let r := offlineOnLastExit servers friends st.u
      ({ conns := c', u := r.1 }, r.2)
    else ({ conns := c', u := st.u }, [])

/-- Outward (server- or friend-directed) presence broadcasts of a trace. -/
def isOutward : PAct → Bool
  | PAct.selfCast _ => false
  | PAct.serverCast _ _ => true
  | PAct.friendCast _ _ => true

/-! ### Association-list lemmas -/

theorem alookup_aset_self {α β : Type} [DecidableEq α] (l : List (α × β)) (a : α) (b : β) :
    alookup (aset l a b) a = some b := by
  induction l with
  | nil => simp [aset, alookup]
  | cons e t ih =>
    obtain ⟨k, v⟩ := e
    by_cases h : k = a
    · simp [aset, alookup, h]
    · simp [aset, alookup, h, ih]

theorem alookup_aset_ne {α β : Type} [DecidableEq α] (l : List (α × β)) (a k : α) (b : β)
    (hk : k ≠ a) : alookup (aset l a b) k = alookup l k := by
  induction l with
  | nil => simp [aset, alookup, Ne.symm hk]
  | cons e t ih =>
    obtain ⟨k', v⟩ := e
    by_cases h : k' = a
    · subst h
      have : k' ≠ k := fun hkk => hk (hkk ▸ rfl)
      simp [aset, alookup, this]
    · by_cases h2 : k' = k
      · subst h2
        simp [aset, alookup, h]
      · simp [aset, alookup, h, h2, ih]

theorem alookup_aremove_self {α β : Type} [DecidableEq α] (l : List (α × β)) (a : α) :
    alookup (aremove l a) a = none := by
  induction l with
  | nil => simp [aremove, alookup]
  | cons e t ih =>
    obtain ⟨k, v⟩ := e
    by_cases h : k = a
    · simpa [aremove, List.filter_cons, h] using ih
    · simpa [aremove, List.filter_cons, alookup, h] using ih

theorem aset_of_not_mem {α β : Type} [DecidableEq α] (l : List (α × β)) (a : α) (b : β)
    (h : ∀ e ∈ l, e.1 ≠ a) : aset l a b = l ++ [(a, b)] := by
  induction l with
  | nil => simp [aset]
  | cons e t ih =>
    obtain ⟨k, v⟩ := e
    have hk : k ≠ a := h (k, v) (List.mem_cons_self _ _)
    simp [aset, hk, ih (fun e he => h e (List.mem_cons_of_mem _ he))]

theorem aset_keys_of_mem {α β : Type} [DecidableEq α] (l : List (α × β)) (a : α) (b c : β)
    (h : alookup l a = some b) : (aset l a c).map Prod.fst = l.map Prod.fst := by
  induction l with
  | nil => simp [alookup] at h
  | cons e t ih =>
    obtain ⟨k, v⟩ := e
    by_cases hk : k = a
    · simp [aset, hk]
    · simp only [alookup, hk, if_false] at h
      simp [aset, hk, ih h]

theorem aset_ne_nil {α β : Type} [DecidableEq α] (l : List (α × β)) (a : α) (b : β) :
    aset l a b ≠ [] := by
  cases l with
  | nil => simp [aset]
  | cons e t =>
    obtain ⟨k, v⟩ := e
    by_cases h : k = a <;> simp [aset, h]

theorem noEmptyVals_aset {α β : Type} [DecidableEq α] {l : List (α × List β)} {a : α}
    {b : List β} (h : noEmptyVals l) (hb : b ≠ []) : noEmptyVals (aset l a b) := by
  induction l with
  | nil =>
    intro e he
    simp [aset] at he
    simp [he, hb]
  | cons e0 t ih =>
    obtain ⟨k, v⟩ := e0
    by_cases hk : k = a
    · intro e he
      simp only [aset, hk, if_true] at he
      rcases List.mem_cons.mp he with h1 | h2
      · simp [h1, hb]
      · exact h e (List.mem_cons_of_mem _ h2)
    · intro e he
      simp only [aset, hk, if_false] at he
      rcases List.mem_cons.mp he with h1 | h2
      · exact h e (h1 ▸ List.mem_cons_self _ _)
      · exact ih (fun e' he' => h e' (List.mem_cons_of_mem _ he')) e h2

theorem noEmptyVals_aremove {α β : Type} [DecidableEq α] {l : List (α × List β)} {a : α}
    (h : noEmptyVals l) : noEmptyVals (aremove l a) :=
  fun e he => h e (List.mem_of_mem_filter he)

theorem alookup_eq_none_iff {α β : Type} [DecidableEq α] (l : List (α × β)) (a : α) :
    alookup l a = none ↔ ∀ e ∈ l, e.1 ≠ a := by
  induction l with
  | nil => simp [alookup]
  | cons e t ih =>
    obtain ⟨k, v⟩ := e
    by_cases h : k = a
    · simp [alookup, h]
    · simp [alookup, h, ih]

theorem aremove_nil {α β : Type} [DecidableEq α] (a : α) :
    aremove ([] : List (α × β)) a = [] := rfl

theorem aremove_of_lookup_none {α β : Type} [DecidableEq α] {l : List (α × β)} {a : α}
    (h : alookup l a = none) : aremove l a = l := by
  refine List.filter_eq_self.mpr (fun e he => ?_)
  have := (alookup_eq_none_iff l a).mp h e he
  simpa using this

namespace ConnectionManager

/-! ### ConnectionManager lemmas -/

theorem members_disconnect (s : CMState) (r : RoomKey) (c : Conn) :
    members (disconnect s r c) r = (members s r).filter (fun x => x ≠ c) := by
  cases h : alookup s r with
  | none => simp [disconnect, h, members]
  | some ms =>
    simp only [disconnect, h, members, Option.getD_some]
    split
    · next he =>
        rw [alookup_aremove_self]
        simp only [Option.getD_none]
        exact he.symm
    · next _ => simp [alookup_aset_self]

theorem mem_members_disconnect {s : CMState} {r : RoomKey} {c x : Conn}
    (h : x ∈ members (disconnect s r c) r) : x ∈ members s r := by
  rw [members_disconnect] at h
  exact List.mem_of_mem_filter h

theorem mem_members_foldl_disconnect (r : RoomKey) (x : Conn) (dead : List Conn) :
    ∀ s : CMState, x ∈ members (dead.foldl (fun st y => disconnect st r y) s) r →
      x ∈ members s r := by
  induction dead with
  | nil => intro s h; exact h
  | cons y t ih =>
    intro s h
    simp only [List.foldl_cons] at h
    exact mem_members_disconnect (ih _ h)

theorem not_mem_members_foldl_disconnect (r : RoomKey) (c : Conn) (dead : List Conn) :
    ∀ s : CMState, c ∈ dead →
      c ∉ members (dead.foldl (fun st y => disconnect st r y) s) r := by
  induction dead with
  | nil => intro s h; simp at h
  | cons x t ih =>
    intro s h
    simp only [List.foldl_cons]
    by_cases hct : c ∈ t
    · exact ih _ hct
    · have hcx : c = x := by
        rcases List.mem_cons.mp h with h1 | h2
        · exact h1
        · exact absurd h2 hct
      subst hcx
      intro hmem
      have h2 := mem_members_foldl_disconnect r c t _ hmem
      rw [members_disconnect] at h2
      have h3 := (List.mem_filter.mp h2).2
      simp at h3

/-! ### Trace-counting lemmas -/

theorem countSerialize_append (l l' : List Act) :
    countSerialize (l ++ l') = countSerialize l + countSerialize l' := by
  induction l with
  | nil => simp [countSerialize]
  | cons a t ih => cases a <;> simp [countSerialize, ih] <;> omega

theorem countSerialize_sendActs (fails : Conn → Bool) (l : List Conn) :
    countSerialize (sendActs fails l) = 0 := by
  induction l with
  | nil => simp [sendActs, countSerialize]
  | cons c t ih =>
    cases h : fails c <;> simpa [sendActs, countSerialize, h] using ih

theorem countSerialize_lockActs (n : Nat) : countSerialize (lockActs n) = 0 := by
  induction n with
  | zero => simp [lockActs, countSerialize]
  | succ k ih => simp [lockActs, countSerialize, ih]

theorem countSerialize_userBlocks (fails : Conn → Bool) (s : CMState) (uids : List Nat) :
    countSerialize
      ((uids.map (fun uid => Act.snapshot :: sendActs fails (members s (userRoom uid)))).flatten)
      = 0 := by
  induction uids with
  | nil => simp [countSerialize]
  | cons uid t ih =>
    simp [List.flatten_cons, countSerialize, countSerialize_append,
      countSerialize_sendActs, ih]

theorem countSendTo_append (c : Conn) (l l' : List Act) :
    countSendTo c (l ++ l') = countSendTo c l + countSendTo c l' := by
  induction l with
  | nil => simp [countSendTo]
  | cons a t ih => cases a <;> simp [countSendTo, ih] <;> omega

theorem countSendTo_lockActs (c : Conn) (n : Nat) : countSendTo c (lockActs n) = 0 := by
  induction n with
  | zero => simp [lockActs, countSendTo]
  | succ k ih => simp [lockActs, countSendTo, ih]

theorem countSendTo_sendActs_of_not_mem (fails : Conn → Bool) {c : Conn} {l : List Conn}
    (hc : c ∉ l) : countSendTo c (sendActs fails l) = 0 := by
  induction l with
  | nil => simp [sendActs, countSendTo]
  | cons x t ih =>
    have hx : x ≠ c := fun h => hc (h ▸ List.mem_cons_self _ _)
    have ht : c ∉ t := fun h => hc (List.mem_cons_of_mem _ h)
    cases h : fails x <;> simpa [sendActs, countSendTo, h, hx] using ih ht

theorem countSendTo_sendActs_of_nodup (fails : Conn → Bool) {c : Conn} {l : List Conn}
    (hnd : l.Nodup) (hc : c ∈ l) (hf : fails c = false) :
    countSendTo c (sendActs fails l) = 1 := by
  induction l with
  | nil => simp at hc
  | cons x t ih =>
    by_cases hx : x = c
    · subst hx
      have ht : x ∉ t := (List.nodup_cons.mp hnd).1
      have h0 := countSendTo_sendActs_of_not_mem fails ht
      simp only [sendActs] at h0 ⊢
      simp [countSendTo, hf, h0, List.map_cons]
    · have h2 : c ∈ t := by
        rcases List.mem_cons.mp hc with h1 | h2
        · exact absurd h1.symm hx
        · exact h2
      cases h : fails x <;>
        simpa [sendActs, countSendTo, h, hx] using ih (List.nodup_cons.mp hnd).2 h2

/-! ### Lock-discipline lemmas -/

theorem ioUnlocked_sendActs (fails : Conn → Bool) (l : List Conn) (rest : List Act) :
    ioUnlocked 0 (sendActs fails l ++ rest) = ioUnlocked 0 rest := by
  induction l with
  | nil => simp [sendActs]
  | cons x t ih =>
    cases h : fails x <;> simpa [sendActs, ioUnlocked, h] using ih

theorem ioUnlocked_lockActs (n : Nat) : ioUnlocked 0 (lockActs n) = true := by
  induction n with
  | zero => simp [lockActs, ioUnlocked]
  | succ k ih => simpa [lockActs, ioUnlocked] using ih

theorem ioUnlocked_userBlocks (fails : Conn → Bool) (s : CMState) (uids : List Nat)
    (rest : List Act) :
    ioUnlocked 0
      ((uids.map (fun uid => Act.snapshot :: sendActs fails (members s (userRoom uid)))).flatten
        ++ rest) = ioUnlocked 0 rest := by
  induction uids with
  | nil => simp
  | cons uid t ih =>
    simp only [List.map_cons, List.flatten_cons, List.cons_append, List.append_assoc]
    simp [ioUnlocked, ioUnlocked_sendActs, ih]

end ConnectionManager

namespace VoiceManager

/-! ### VoiceManager lemmas -/

/-- Unfolded form of `VoiceManager.disconnect`: the survivor room is the old
room minus `u` (empty rooms are dropped from the registry), and the
`voice.user_left` event goes to exactly the participants found under the
channel id afterwards. -/
theorem disconnect_eq (s : VMState) (ch u : Nat) :
    disconnect s ch u =
      (if aremove (room s ch) u = [] then aremove s ch
        else aset s ch (aremove (room s ch) u),
       (room
          (if aremove (room s ch) u = [] then aremove s ch
            else aset s ch (aremove (room s ch) u)) ch).map
         (fun e => VAct.send e.1 (VEvent.left u))) := by
  cases h : alookup s ch with
  | none =>
    have hr : room s ch = [] := by simp [room, h]
    have ha : aremove s ch = s := aremove_of_lookup_none h
    simp [disconnect, h, hr, aremove_nil, ha]
  | some rm =>
    have hr : room s ch = rm := by simp [room, h]
    simp only [disconnect, h, hr]

/-- First projection of `disconnect_eq`. -/
theorem disconnect_fst (s : VMState) (ch u : Nat) :
    (disconnect s ch u).1 =
      if aremove (room s ch) u = [] then aremove s ch
        else aset s ch (aremove (room s ch) u) := by
  rw [disconnect_eq]

/-- Second projection of `disconnect_eq`. -/
theorem disconnect_snd (s : VMState) (ch u : Nat) :
    (disconnect s ch u).2 =
      (room
          (if aremove (room s ch) u = [] then aremove s ch
            else aset s ch (aremove (room s ch) u)) ch).map
        (fun e => VAct.send e.1 (VEvent.left u)) := by
  rw [disconnect_eq]

end VoiceManager

/-! ### Claim theorems -/

/-- Claim C1: joining a fresh room and then leaving it removes the room key
from the registry, and both the broadcast registry and the voice registry
preserve, on join and on leave, the invariant that every room present in
the registry has at least one member (no leaked empty rooms). -/
theorem room_removed_when_last_member_leaves :
    (∀ (s : CMState) (r : RoomKey) (c : Conn), alookup s r = none →
      alookup (ConnectionManager.disconnect (ConnectionManager.connect s r c) r c) r = none)
    ∧ (∀ (s : CMState) (r : RoomKey) (c : Conn), noEmptyVals s →
      noEmptyVals (ConnectionManager.connect s r c))
    ∧ (∀ (s : CMState) (r : RoomKey) (c : Conn), noEmptyVals s →
      noEmptyVals (ConnectionManager.disconnect s r c))
    ∧ (∀ (s : VMState) (ch u : Nat), alookup s ch = none →
      alookup ((VoiceManager.disconnect (VoiceManager.connect s ch u).1 ch u).1) ch = none)
    ∧ (∀ (s : VMState) (ch u : Nat), noEmptyVals s →
      noEmptyVals (VoiceManager.connect s ch u).1)
    ∧ (∀ (s : VMState) (ch u : Nat), noEmptyVals s →
      noEmptyVals (VoiceManager.disconnect s ch u).1) := by
  refine ⟨?_, ?_, ?_, ?_, ?_, ?_⟩
  · intro s r c h
    have h1 : ConnectionManager.connect s r c = aset s r [c] := by
      simp [ConnectionManager.connect, ConnectionManager.members, h]
    rw [h1]
    have h2 : alookup (aset s r [c]) r = some [c] := alookup_aset_self s r [c]
    simp [ConnectionManager.disconnect, h2, alookup_aremove_self]
  · intro s r c hne
    have h1 : ConnectionManager.connect s r c
        = aset s r (if c ∈ ConnectionManager.members s r then ConnectionManager.members s r
            else ConnectionManager.members s r ++ [c]) := rfl
    rw [h1]
    refine noEmptyVals_aset hne ?_
    by_cases hc : c ∈ ConnectionManager.members s r
    · rw [if_pos hc]
      exact List.ne_nil_of_mem hc
    · rw [if_neg hc]
      simp
  · intro s r c hne
    cases h : alookup s r with
    | none => simpa [ConnectionManager.disconnect, h] using hne
    | some ms =>
      simp only [ConnectionManager.disconnect, h]
      split
      · exact noEmptyVals_aremove hne
      · next he => exact noEmptyVals_aset hne he
  · intro s ch u h
    have hroom : VoiceManager.room s ch = [] := by simp [VoiceManager.room, h]
    have h1 : (VoiceManager.connect s ch u).1
        = aset s ch [(u, VoiceManager.defaultParticipant u)] := by
      simp [VoiceManager.connect, hroom, aset]
    rw [h1]
    have h2 := alookup_aset_self s ch [(u, VoiceManager.defaultParticipant u)]
    rw [VoiceManager.disconnect_fst]
    have h3 : VoiceManager.room (aset s ch [(u, VoiceManager.defaultParticipant u)]) ch
        = [(u, VoiceManager.defaultParticipant u)] := by simp [VoiceManager.room, h2]
    rw [h3]
    have h4 : aremove [(u, VoiceManager.defaultParticipant u)] u = [] := by simp [aremove]
    rw [h4, if_pos rfl]
    exact alookup_aremove_self _ _
  · intro s ch u hne
    have h1 : (VoiceManager.connect s ch u).1
        = aset s ch (aset (VoiceManager.room s ch) u (VoiceManager.defaultParticipant u)) := rfl
    rw [h1]
    exact noEmptyVals_aset hne (aset_ne_nil _ _ _)
  · intro s ch u hne
    rw [VoiceManager.disconnect_fst]
    by_cases he : aremove (VoiceManager.room s ch) u = []
    · rw [if_pos he]
      exact noEmptyVals_aremove hne
    · rw [if_neg he]
      exact noEmptyVals_aset hne he

/-- Witness for C1 at concrete registries. -/
theorem room_removed_when_last_member_leaves_witness :
    alookup (ConnectionManager.disconnect (ConnectionManager.connect [] "channel:1" 5)
        "channel:1" 5) "channel:1" = (none : Option (List Conn))
    ∧ noEmptyVals (ConnectionManager.connect [("server:9", [1])] "channel:2" 2)
    ∧ noEmptyVals (ConnectionManager.disconnect [("server:9", [1, 2])] "server:9" 1)
    ∧ alookup ((VoiceManager.disconnect (VoiceManager.connect [] 3 7).1 3 7).1) 3
        = (none : Option VRoom)
    ∧ noEmptyVals (VoiceManager.connect [] 3 7).1
    ∧ noEmptyVals (VoiceManager.disconnect
        [(3, [(7, VoiceManager.defaultParticipant 7), (8, VoiceManager.defaultParticipant 8)])]
        3 7).1 :=
  ⟨room_removed_when_last_member_leaves.1 [] "channel:1" 5 rfl,
   room_removed_when_last_member_leaves.2.1 _ "channel:2" 2 (by decide),
   room_removed_when_last_member_leaves.2.2.1 _ "server:9" 1 (by decide),
   room_removed_when_last_member_leaves.2.2.2.1 [] 3 7 rfl,
   room_removed_when_last_member_leaves.2.2.2.2.1 [] 3 7 (by decide),
   room_removed_when_last_member_leaves.2.2.2.2.2 _ 3 7 (by decide)⟩

/-- Claim C2: `broadcast`, `broadcast_channel_except` and `broadcast_to_users`
serialize the event payload exactly once per call, independent of the number
of subscribers and of the number of user rooms fanned out to. -/
theorem event_serialized_once :
    (∀ (s : CMState) (r : RoomKey) (fails : Conn → Bool),
      ConnectionManager.countSerialize (ConnectionManager.broadcast s r fails).2 = 1)
    ∧ (∀ (s : CMState) (r : RoomKey) (ex : Conn) (fails : Conn → Bool),
      ConnectionManager.countSerialize (ConnectionManager.broadcastExcept s r ex fails).2 = 1)
    ∧ (∀ (s : CMState) (uids : List Nat) (fails : Conn → Bool),
      ConnectionManager.countSerialize (ConnectionManager.broadcastToUsers s uids fails).2
        = 1) := by
  refine ⟨?_, ?_, ?_⟩
  · intro s r fails
    simp [ConnectionManager.broadcast, ConnectionManager.countSerialize,
      ConnectionManager.countSerialize_append, ConnectionManager.countSerialize_sendActs,
      ConnectionManager.countSerialize_lockActs]
  · intro s r ex fails
    simp [ConnectionManager.broadcastExcept, ConnectionManager.countSerialize,
      ConnectionManager.countSerialize_append, ConnectionManager.countSerialize_sendActs,
      ConnectionManager.countSerialize_lockActs]
  · intro s uids fails
    simp [ConnectionManager.broadcastToUsers, ConnectionManager.countSerialize,
      ConnectionManager.countSerialize_append, ConnectionManager.countSerialize_userBlocks,
      ConnectionManager.countSerialize_lockActs]

/-- Claim C8: a raising send does not abort the fan-out — every non-failing
member of the snapshot still receives the event exactly once — and every
member whose send raised has been removed from the room when the broadcast
call returns. -/
theorem broadcast_prunes_failed_and_delivers (s : CMState) (r : RoomKey)
    (fails : Conn → Bool) (c : Conn) (hnd : (ConnectionManager.members s r).Nodup)
    (hc : c ∈ ConnectionManager.members s r) :
    (fails c = false →
      ConnectionManager.countSendTo c (ConnectionManager.broadcast s r fails).2 = 1)
    ∧ (fails c = true →
      c ∉ ConnectionManager.members (ConnectionManager.broadcast s r fails).1 r) := by
  constructor
  · intro hf
    have h2 : (ConnectionManager.broadcast s r fails).2
        = ConnectionManager.Act.serialize :: ConnectionManager.Act.snapshot ::
            (ConnectionManager.sendActs fails (ConnectionManager.members s r)
              ++ ConnectionManager.lockActs
                  ((ConnectionManager.members s r).filter fails).length) := rfl
    rw [h2]
    simp only [ConnectionManager.countSendTo]
    rw [ConnectionManager.countSendTo_append,
      ConnectionManager.countSendTo_sendActs_of_nodup fails hnd hc hf,
      ConnectionManager.countSendTo_lockActs]
  · intro hf
    have h1 : (ConnectionManager.broadcast s r fails).1
        = ((ConnectionManager.members s r).filter fails).foldl
            (fun st x => ConnectionManager.disconnect st r x) s := rfl
    rw [h1]
    have hdead : c ∈ (ConnectionManager.members s r).filter fails :=
      List.mem_filter.mpr ⟨hc, hf⟩
    exact ConnectionManager.not_mem_members_foldl_disconnect r c _ s hdead

/-- Witness for C8: a three-member room in which connection 2's send raises;
connection 1 is still delivered to exactly once and connection 2 has been
pruned. -/
theorem broadcast_prunes_failed_and_delivers_witness :
    ConnectionManager.countSendTo 1
      (ConnectionManager.broadcast [("channel:1", [1, 2, 3])] "channel:1"
        (fun c => decide (c = 2))).2 = 1
    ∧ 2 ∉ ConnectionManager.members
        (ConnectionManager.broadcast [("channel:1", [1, 2, 3])] "channel:1"
          (fun c => decide (c = 2))).1 "channel:1" :=
  ⟨(broadcast_prunes_failed_and_delivers _ _ _ 1 (by decide) (by decide)).1 rfl,
   (broadcast_prunes_failed_and_delivers _ _ _ 2 (by decide) (by decide)).2 rfl⟩

/-- Claim C9 as stated is false on the code: `broadcast` takes its snapshot
copy `list(self._rooms.get(room, []))` WITHOUT acquiring the membership
lock (the method never touches `self._lock` before iterating), shown here
on a concrete one-member room. -/
theorem broadcast_snapshot_not_under_lock :
    ¬ (ConnectionManager.snapshotsLocked 0
        (ConnectionManager.broadcast [("channel:1", [5])] "channel:1" (fun _ => false)).2 = true
      ∧ ConnectionManager.ioUnlocked 0
        (ConnectionManager.broadcast [("channel:1", [5])] "channel:1" (fun _ => false)).2
          = true) := by
  decide

/-- Claim C9 (amended): during every broadcast the iterated membership set is
a snapshot copy taken while the membership lock is NOT held, and no network
send (successful or raising) ever occurs while the lock is held; the lock is
only taken by the join/leave mutations, including the dead-connection
cleanup after the fan-out. -/
theorem broadcast_io_outside_lock :
    (∀ (s : CMState) (r : RoomKey) (fails : Conn → Bool),
      ConnectionManager.ioUnlocked 0 (ConnectionManager.broadcast s r fails).2 = true)
    ∧ (∀ (s : CMState) (r : RoomKey) (ex : Conn) (fails : Conn → Bool),
      ConnectionManager.ioUnlocked 0 (ConnectionManager.broadcastExcept s r ex fails).2 = true)
    ∧ (∀ (s : CMState) (uids : List Nat) (fails : Conn → Bool),
      ConnectionManager.ioUnlocked 0 (ConnectionManager.broadcastToUsers s uids fails).2
        = true) := by
  refine ⟨?_, ?_, ?_⟩
  · intro s r fails
    simp [ConnectionManager.broadcast, ConnectionManager.ioUnlocked,
      ConnectionManager.ioUnlocked_sendActs, ConnectionManager.ioUnlocked_lockActs]
  · intro s r ex fails
    simp [ConnectionManager.broadcastExcept, ConnectionManager.ioUnlocked,
      ConnectionManager.ioUnlocked_sendActs, ConnectionManager.ioUnlocked_lockActs]
  · intro s uids fails
    simp [ConnectionManager.broadcastToUsers, ConnectionManager.ioUnlocked,
      ConnectionManager.ioUnlocked_userBlocks, ConnectionManager.ioUnlocked_lockActs]

/-! ### Presence lemmas and theorems -/

theorem offlineOnLastExit_status (servers friends : List Nat) (u : PUser) :
    (offlineOnLastExit servers friends u).1.status = Status.offline := by
  by_cases h : u.status = Status.offline
  · simp [offlineOnLastExit, h]
  · simp [offlineOnLastExit, h]

theorem offlineOnLastExit_preferred (servers friends : List Nat) (u : PUser) :
    (offlineOnLastExit servers friends u).1.preferred_status = u.preferred_status := by
  by_cases h : u.status = Status.offline
  · simp [offlineOnLastExit, h]
  · simp [offlineOnLastExit, h]

/-- Claim C3 (amended): the presence machine keeps a user with zero personal
connections at visible status offline; a first personal connection joining
while the preferred status is online triggers exactly one outward status
broadcast to the user's servers and friends — carrying online when the
hide-status flag is unset and offline when it is set — and a first
connection while the preferred status is offline (invisible mode) triggers
no broadcast at all. -/
theorem presence_connect_broadcasts (servers friends : List Nat) (st : PMState)
    (hinv : st.conns = 0 → st.u.status = Status.offline) :
    (∀ e : PEvt, (pstep servers friends e st).1.conns = 0 →
      (pstep servers friends e st).1.u.status = Status.offline)
    ∧ (st.conns = 0 → st.u.preferred_status = Status.online →
      (pstep servers friends PEvt.connect st).2 =
        PAct.selfCast Status.online ::
          broadcastPresence servers friends
            (if st.u.hide_status then Status.offline else Status.online))
    ∧ (st.conns = 0 → st.u.preferred_status = Status.offline →
      (pstep servers friends PEvt.connect st).2 = []) := by
  refine ⟨?_, ?_, ?_⟩
  · intro e h
    cases e with
    | connect => simp [pstep] at h
    | leave r =>
      by_cases hc : st.conns - 1 = 0
      · simp [pstep, hc, offlineOnLastExit_status]
      · simp [pstep, hc] at h
  · intro h0 hpref
    have hst := hinv h0
    have hne : st.u.status ≠ st.u.preferred_status := by
      rw [hst, hpref]
      decide
    simp [pstep, restoreOnConnect, hne, hpref, hst]
  · intro h0 hpref
    have hst := hinv h0
    have heq : ¬ st.u.status ≠ st.u.preferred_status := by
      rw [hst, hpref]
      simp
    simp [pstep, restoreOnConnect, heq]

/-- Witness for C3 (amended) at a user with preferred status online and
hide-status unset, gaining their first connection. -/
theorem presence_connect_broadcasts_witness :
    (pstep [7] [8] PEvt.connect ⟨0, ⟨Status.offline, Status.online, false⟩⟩).2 =
      PAct.selfCast Status.online ::
        broadcastPresence [7] [8]
          (if (⟨Status.offline, Status.online, false⟩ : PUser).hide_status
            then Status.offline else Status.online) :=
  (presence_connect_broadcasts [7] [8] ⟨0, ⟨Status.offline, Status.online, false⟩⟩
    (fun _ => rfl)).2.1 rfl rfl

/-- Claim C3 as stated is false on the code: for a user in invisible-to-others
mode (`hide_status = true`) whose preferred status is online, the first
connect's outward broadcast carries offline, not online (routers/ws.py line
227 substitutes "offline" before calling `broadcast_presence`). -/
theorem presence_hide_status_counterexample :
    ¬ ((pstep [7] [] PEvt.connect
          ⟨0, ⟨Status.offline, Status.online, true⟩⟩).2.filter isOutward
        = broadcastPresence [7] [] Status.online) := by
  decide

/-- Claim C4: the heartbeat-timeout exit and the transport-close exit of
`personal_ws` run the identical cleanup; when no personal connection remains
afterwards the visible status is offline, the change is broadcast to the
user's servers and friends exactly when the status actually changed, and the
durable preferred status is untouched. -/
theorem personal_exit_offline (reason : ExitReason) (servers friends : List Nat)
    (s : CMState) (uid ws : Nat) (u : PUser)
    (h : ConnectionManager.members (personalWsExit reason servers friends s uid ws u).1
      (ConnectionManager.userRoom uid) = []) :
    personalWsExit ExitReason.closed servers friends s uid ws u
      = personalWsExit ExitReason.timedOut servers friends s uid ws u
    ∧ (personalWsExit reason servers friends s uid ws u).2.1.status = Status.offline
    ∧ (personalWsExit reason servers friends s uid ws u).2.1.preferred_status
        = u.preferred_status
    ∧ (u.status ≠ Status.offline →
        (personalWsExit reason servers friends s uid ws u).2.2
          = broadcastPresence servers friends Status.offline)
    ∧ (u.status = Status.offline →
        (personalWsExit reason servers friends s uid ws u).2.2 = []) := by
  have hcl : ∀ rsn, personalWsExit rsn servers friends s uid ws u
      = personalCleanup servers friends s uid ws u := by
    intro rsn
    cases rsn <;> rfl
  have hfst : (personalCleanup servers friends s uid ws u).1
      = ConnectionManager.disconnect s (ConnectionManager.userRoom uid) ws := by
    unfold personalCleanup
    split
    · rfl
    · rfl
  rw [hcl reason, hfst] at h
  have hpc : personalCleanup servers friends s uid ws u
      = (ConnectionManager.disconnect s (ConnectionManager.userRoom uid) ws,
         (offlineOnLastExit servers friends u).1, (offlineOnLastExit servers friends u).2) := by
    unfold personalCleanup
    rw [if_pos h]
  refine ⟨(hcl ExitReason.closed).trans (hcl ExitReason.timedOut).symm, ?_, ?_, ?_, ?_⟩
  · rw [hcl reason, hpc]
    exact offlineOnLastExit_status servers friends u
  · rw [hcl reason, hpc]
    exact offlineOnLastExit_preferred servers friends u
  · intro hne
    rw [hcl reason, hpc]
    simp [offlineOnLastExit, hne]
  · intro heq
    rw [hcl reason, hpc]
    simp [offlineOnLastExit, heq]

/-- Witness for C4: an online user whose single personal connection times
out; the visible status flips to offline and is broadcast to server 1 and
friend 2. -/
theorem personal_exit_offline_witness :
    (personalWsExit ExitReason.timedOut [1] [2] [("user:7", [3])] 7 3
        ⟨Status.online, Status.dnd, false⟩).2.1.status = Status.offline
    ∧ (personalWsExit ExitReason.timedOut [1] [2] [("user:7", [3])] 7 3
        ⟨Status.online, Status.dnd, false⟩).2.2
        = broadcastPresence [1] [2] Status.offline := by
  have h := personal_exit_offline ExitReason.timedOut [1] [2] [("user:7", [3])] 7 3
    ⟨Status.online, Status.dnd, false⟩ (by decide)
  exact ⟨h.2.1, h.2.2.2.1 (by decide)⟩

/-! ### Voice session theorems -/

/-- Claim C5: connecting a fresh participant to a voice room sends the
newcomer one members event listing every participant including itself (the
newcomer entering in default unmuted, undeafened, not-sharing state), and
every pre-existing participant exactly one joined event naming the
newcomer; the newcomer receives no joined event. -/
theorem voice_connect_events (s : VMState) (ch u : Nat) (ps : VRoom)
    (hr : VoiceManager.room s ch = ps) (hu : ∀ e ∈ ps, e.1 ≠ u) :
    (VoiceManager.connect s ch u).2 =
      VAct.send u (VEvent.members (ps.map Prod.snd ++ [VoiceManager.defaultParticipant u])) ::
        ps.map (fun e => VAct.send e.1 (VEvent.joined (VoiceManager.defaultParticipant u)))
    ∧ VoiceManager.room (VoiceManager.connect s ch u).1 ch
        = ps ++ [(u, VoiceManager.defaultParticipant u)]
    ∧ VoiceManager.defaultParticipant u
        = { user_id := u, is_muted := false, is_deafened := false,
            is_sharing_screen := false, is_sharing_webcam := false } := by
  have hset : aset (VoiceManager.room s ch) u (VoiceManager.defaultParticipant u)
      = ps ++ [(u, VoiceManager.defaultParticipant u)] := by
    rw [hr]
    exact aset_of_not_mem ps u _ hu
  refine ⟨?_, ?_, rfl⟩
  · have h2 : (VoiceManager.connect s ch u).2
        = VAct.send u (VEvent.members
            ((ps ++ [(u, VoiceManager.defaultParticipant u)]).map Prod.snd)) ::
          ((ps ++ [(u, VoiceManager.defaultParticipant u)]).filter (fun e => e.1 ≠ u)).map
            (fun e => VAct.send e.1 (VEvent.joined (VoiceManager.defaultParticipant u))) := by
      simp only [VoiceManager.connect, hset]
    rw [h2]
    have h3 : ps.filter (fun e => e.1 ≠ u) = ps :=
      List.filter_eq_self.mpr (fun e he => by simpa using hu e he)
    rw [List.filter_append, h3]
    simp
  · have h1 : (VoiceManager.connect s ch u).1
        = aset s ch (aset (VoiceManager.room s ch) u (VoiceManager.defaultParticipant u)) :=
      rfl
    rw [h1, hset]
    simp [VoiceManager.room, alookup_aset_self]

/-- Witness for C5: user 20 joins a room whose sole participant is the muted
user 10. -/
theorem voice_connect_events_witness :
    (VoiceManager.connect [(1, [(10, ⟨10, true, false, false, false⟩)])] 1 20).2 =
      VAct.send 20 (VEvent.members
        ([(10, (⟨10, true, false, false, false⟩ : VoiceParticipant))].map Prod.snd
          ++ [VoiceManager.defaultParticipant 20])) ::
        [(10, (⟨10, true, false, false, false⟩ : VoiceParticipant))].map
          (fun e => VAct.send e.1 (VEvent.joined (VoiceManager.defaultParticipant 20))) :=
  (voice_connect_events [(1, [(10, ⟨10, true, false, false, false⟩)])] 1 20
    [(10, ⟨10, true, false, false, false⟩)] rfl (by decide)).1

/-- Claim C6: `update_state` on a registered participant merges exactly the
supplied flags (absent flags keep their prior values, the user id is
untouched), stores the updated record in place, leaves every other
participant unchanged and the room key set unchanged, and broadcasts one
state_changed event carrying the full updated state to every participant in
the room, the actor included. -/
theorem voice_update_state_events (s : VMState) (ch u : Nat) (f : StateUpd)
    (p : VoiceParticipant) (hp : alookup (VoiceManager.room s ch) u = some p) :
    (VoiceManager.update_state s ch u f).2 =
      (aset (VoiceManager.room s ch) u (VoiceManager.applyUpd p f)).map
        (fun e => VAct.send e.1 (VEvent.stateChanged (VoiceManager.applyUpd p f)))
    ∧ (f.is_muted = none → (VoiceManager.applyUpd p f).is_muted = p.is_muted)
    ∧ (f.is_deafened = none → (VoiceManager.applyUpd p f).is_deafened = p.is_deafened)
    ∧ (f.is_sharing_screen = none →
        (VoiceManager.applyUpd p f).is_sharing_screen = p.is_sharing_screen)
    ∧ (f.is_sharing_webcam = none →
        (VoiceManager.applyUpd p f).is_sharing_webcam = p.is_sharing_webcam)
    ∧ (VoiceManager.applyUpd p f).user_id = p.user_id
    ∧ alookup (VoiceManager.room (VoiceManager.update_state s ch u f).1 ch) u
        = some (VoiceManager.applyUpd p f)
    ∧ (∀ v, v ≠ u →
        alookup (VoiceManager.room (VoiceManager.update_state s ch u f).1 ch) v
          = alookup (VoiceManager.room s ch) v)
    ∧ (aset (VoiceManager.room s ch) u (VoiceManager.applyUpd p f)).map Prod.fst
        = (VoiceManager.room s ch).map Prod.fst := by
  have h1 : (VoiceManager.update_state s ch u f).1
      = aset s ch (aset (VoiceManager.room s ch) u (VoiceManager.applyUpd p f)) := by
    simp only [VoiceManager.update_state, hp]
  have h2 : (VoiceManager.update_state s ch u f).2
      = (aset (VoiceManager.room s ch) u (VoiceManager.applyUpd p f)).map
          (fun e => VAct.send e.1 (VEvent.stateChanged (VoiceManager.applyUpd p f))) := by
    simp only [VoiceManager.update_state, hp]
  have hroom : VoiceManager.room (VoiceManager.update_state s ch u f).1 ch
      = aset (VoiceManager.room s ch) u (VoiceManager.applyUpd p f) := by
    rw [h1]
    simp [VoiceManager.room, alookup_aset_self]
  refine ⟨h2, ?_, ?_, ?_, ?_, rfl, ?_, ?_, aset_keys_of_mem _ _ p _ hp⟩
  · intro h
    simp [VoiceManager.applyUpd, h]
  · intro h
    simp [VoiceManager.applyUpd, h]
  · intro h
    simp [VoiceManager.applyUpd, h]
  · intro h
    simp [VoiceManager.applyUpd, h]
  · rw [hroom]
    exact alookup_aset_self _ _ _
  · intro v hv
    rw [hroom]
    exact alookup_aset_ne _ _ _ _ hv

/-- Witness for C6: muting user 10, whose deafen flag was already set, in a
two-member room; the deafen flag survives and the event goes to both. -/
theorem voice_update_state_events_witness :
    (VoiceManager.update_state
        [(1, [(10, ⟨10, false, true, false, false⟩),
              (20, VoiceManager.defaultParticipant 20)])] 1 10
        { is_muted := some true }).2 =
      (aset (VoiceManager.room
          [(1, [(10, ⟨10, false, true, false, false⟩),
                (20, VoiceManager.defaultParticipant 20)])] 1) 10
          (VoiceManager.applyUpd ⟨10, false, true, false, false⟩ { is_muted := some true })).map
        (fun e => VAct.send e.1 (VEvent.stateChanged
          (VoiceManager.applyUpd ⟨10, false, true, false, false⟩ { is_muted := some true })))
    ∧ (VoiceManager.applyUpd (⟨10, false, true, false, false⟩ : VoiceParticipant)
        { is_muted := some true }).is_deafened = true := by
  have h := voice_update_state_events
    [(1, [(10, ⟨10, false, true, false, false⟩), (20, VoiceManager.defaultParticipant 20)])]
    1 10 { is_muted := some true } ⟨10, false, true, false, false⟩ (by decide)
  exact ⟨h.1, by decide⟩

/-- Claim C7: when the target is in the room, `relay` delivers exactly one
message to it — the payload with every key other than `from` unmodified and
`from` set to the authenticated sender, overriding any client-supplied
value — and nothing to anyone else; when the target is absent, `relay`
returns without raising and sends nothing. -/
theorem voice_relay_delivery (s : VMState) (ch a b : Nat)
    (payload : List (String × JVal)) :
    ((alookup (VoiceManager.room s ch) b).isSome →
      VoiceManager.relay s ch a b payload =
        (s, [VAct.send b (VEvent.relayed (aset payload "from" (JVal.str (toString a))))]))
    ∧ alookup (aset payload "from" (JVal.str (toString a))) "from"
        = some (JVal.str (toString a))
    ∧ (∀ k, k ≠ "from" →
        alookup (aset payload "from" (JVal.str (toString a))) k = alookup payload k)
    ∧ (alookup (VoiceManager.room s ch) b = none →
        VoiceManager.relay s ch a b payload = (s, [])) := by
  refine ⟨?_, alookup_aset_self _ _ _, fun k hk => alookup_aset_ne _ _ _ _ hk, ?_⟩
  · intro h
    cases hm : alookup (VoiceManager.room s ch) b with
    | none => rw [hm] at h; simp at h
    | some q => simp [VoiceManager.relay, hm]
  · intro h
    simp [VoiceManager.relay, h]

/-- Witness for C7: user 20 relays an offer carrying a forged `from` field to
present user 10 (delivered once, `from` rewritten to "20") and to absent
user 99 (silently dropped). -/
theorem voice_relay_delivery_witness :
    VoiceManager.relay [(1, [(10, VoiceManager.defaultParticipant 10)])] 1 20 10
        [("type", JVal.str "offer"), ("from", JVal.str "evil"), ("sdp", JVal.str "X")]
      = ([(1, [(10, VoiceManager.defaultParticipant 10)])],
         [VAct.send 10 (VEvent.relayed
           [("type", JVal.str "offer"), ("from", JVal.str "20"), ("sdp", JVal.str "X")])])
    ∧ VoiceManager.relay [(1, [(10, VoiceManager.defaultParticipant 10)])] 1 20 99
        [("type", JVal.str "offer")]
      = ([(1, [(10, VoiceManager.defaultParticipant 10)])], []) := by
  have h1 := voice_relay_delivery [(1, [(10, VoiceManager.defaultParticipant 10)])] 1 20 10
    [("type", JVal.str "offer"), ("from", JVal.str "evil"), ("sdp", JVal.str "X")]
  have h2 := voice_relay_delivery [(1, [(10, VoiceManager.defaultParticipant 10)])] 1 20 99
    [("type", JVal.str "offer")]
  refine ⟨?_, h2.2.2.2 (by decide)⟩
  rw [h1.1 (by decide)]
  rfl

/-- Claim C10: `VoiceManager.disconnect` is total and broadcasts exactly one
voice.user_left event naming `u` to each participant remaining under the
channel after the removal — also when `u` never was a participant, in which
case every current member still receives the event; when the channel id is
absent the surviving room is empty and the broadcast reaches nobody. -/
theorem voice_disconnect_broadcast (s : VMState) (ch u : Nat) :
    (VoiceManager.disconnect s ch u).2 =
      (aremove (VoiceManager.room s ch) u).map (fun e => VAct.send e.1 (VEvent.left u))
    ∧ alookup (VoiceManager.room (VoiceManager.disconnect s ch u).1 ch) u = none := by
  rw [VoiceManager.disconnect_snd, VoiceManager.disconnect_fst]
  by_cases he : aremove (VoiceManager.room s ch) u = []
  · rw [if_pos he]
    have hr0 : VoiceManager.room (aremove s ch) ch = [] := by
      simp [VoiceManager.room, alookup_aremove_self]
    rw [hr0, he]
    exact ⟨rfl, rfl⟩
  · rw [if_neg he]
    have hr1 : VoiceManager.room (aset s ch (aremove (VoiceManager.room s ch) u)) ch
        = aremove (VoiceManager.room s ch) u := by
      simp [VoiceManager.room, alookup_aset_self]
    rw [hr1]
    exact ⟨rfl, alookup_aremove_self _ _⟩

end Chatter
